import Mathlib

/-!
# Verification of the Orchestra coordination engine

A shallow embedding of `orchestra/state.py` and `orchestra/models.py`:
the data model (`Message`, `Task`, `ReviewRequest`, `Vote`,
`ConversationState`) and the mutating operations of `StateManager`
(`send_message`, `get_inbox`, `claim_task`, `complete_task`,
`submit_review`, `cast_vote`).

Modelling conventions:
* Python `datetime` values are modelled as `Nat` (microseconds since the
  epoch); `datetime.utcnow()` becomes an explicit `now : Nat` argument.
* Fresh uuid ids become explicit `String` arguments.
* A method mutating `self._state` becomes a pure function
  `ConversationState → ... → result × ConversationState`; the Python
  `None` return (a rejected operation) becomes `Option.none` in the
  result component.
* `await self._save()` (whole-document persistence) and
  `_append_to_log` (the human-readable transcript) are I/O on files,
  not on `ConversationState`; persistence itself is modelled separately
  by the `Json` serialisation layer below.
* Python `dict` fields (`Vote.votes`, `ConversationState.context`)
  are association lists with Python-dict assignment semantics
  (`dictSet`): update in place if the key exists, append otherwise.
-/

namespace Orchestra

/-- Embeds `AgentRole` from models.py. -/
inductive AgentRole where
  | claude
  | gemini
  | codex
  | copilot
deriving DecidableEq, Repr

/-- The `str` value of each `AgentRole` member (models.py lines 10-14). -/
def AgentRole.value : AgentRole → String
  | .claude => "claude"
  | .gemini => "gemini"
  | .codex => "codex"
  | .copilot => "copilot"

/-- Embeds `Priority` from models.py. -/
inductive Priority where
  | low
  | normal
  | high
  | urgent
deriving DecidableEq, Repr

/-- The `str` value of each `Priority` member. -/
def Priority.value : Priority → String
  | .low => "low"
  | .normal => "normal"
  | .high => "high"
  | .urgent => "urgent"

/-- Embeds `TaskStatus` from models.py. -/
inductive TaskStatus where
  | pending
  | claimed
  | in_progress
  | review
  | completed
  | blocked
deriving DecidableEq, Repr

/-- The `str` value of each `TaskStatus` member. -/
def TaskStatus.value : TaskStatus → String
  | .pending => "pending"
  | .claimed => "claimed"
  | .in_progress => "in_progress"
  | .review => "review"
  | .completed => "completed"
  | .blocked => "blocked"

/-- Embeds `MessageType` from models.py. -/
inductive MessageType where
  | task
  | question
  | response
  | review_request
  | review_result
  | broadcast
  | escalation
deriving DecidableEq, Repr

/-- The `str` value of each `MessageType` member. -/
def MessageType.value : MessageType → String
  | .task => "task"
  | .question => "question"
  | .response => "response"
  | .review_request => "review_request"
  | .review_result => "review_result"
  | .broadcast => "broadcast"
  | .escalation => "escalation"

/-- Embeds `Message` from models.py; timestamps are `Nat`, ids `String`. -/
structure Message where
  id : String
  timestamp : Nat
  from_agent : AgentRole
  to_agent : Option AgentRole
  message_type : MessageType
  content : String
  priority : Priority
  in_reply_to : Option String
  read : Bool
deriving DecidableEq, Repr

/-- Embeds `Task` from models.py. -/
structure Task where
  id : String
  created_at : Nat
  updated_at : Nat
  title : String
  description : String
  status : TaskStatus
  created_by : AgentRole
  assigned_to : Option AgentRole
  claimed_by : Option AgentRole
  dependencies : List String
  result : Option String
  files_modified : List String
deriving DecidableEq, Repr

/-- Embeds `ReviewRequest` from models.py. -/
structure ReviewRequest where
  id : String
  timestamp : Nat
  from_agent : AgentRole
  to_agent : AgentRole
  task_id : Option String
  content : String
  files : List String
  verdict : Option String
  feedback : Option String
deriving DecidableEq, Repr

/-- Embeds `Vote` from models.py; `votes` is the `dict[str, str]` agent-name → choice. -/
structure Vote where
  topic : String
  options : List String
  votes : List (String × String)
  deadline : Option Nat
  result : Option String
deriving DecidableEq, Repr

/-- Embeds `ConversationState` from models.py. -/
structure ConversationState where
  session_id : String
  started_at : Nat
  initial_prompt : Option String
  messages : List Message
  tasks : List Task
  reviews : List ReviewRequest
  context : List (String × String)
  active_votes : List Vote
  human_intervention_requested : Bool
  escalation_reason : Option String
deriving DecidableEq, Repr

/-- Python `dict` assignment `d[k] = v` on an insertion-ordered dict:
replace the value in place when the key is present, append otherwise. -/
def dictSet (d : List (String × String)) (k v : String) : List (String × String) :=
  if d.any (fun p => p.1 == k) then
    d.map (fun p => if p.1 == k then (k, v) else p)
  else
    d ++ [(k, v)]

/-- Replace the first element satisfying `p` by `x'` (Python mutates the
object found by a linear scan in place; the list itself keeps its shape). -/
def replaceFirstBy {α : Type} (p : α → Bool) (x' : α) : List α → List α
  | [] => []
  | x :: rest => if p x then x' :: rest else x :: replaceFirstBy p x' rest

/-- Embeds `StateManager.send_message` (state.py lines 67-94): append a new
message; the fresh uuid and the current time are explicit arguments. -/
def send_message (s : ConversationState) (from_agent : AgentRole)
    (to_agent : Option AgentRole) (content : String)
    (message_type : MessageType) (priority : Priority)
    (in_reply_to : Option String) (id : String) (now : Nat) :
    Message × ConversationState :=
  let msg : Message :=
    { id := id, timestamp := now, from_agent := from_agent,
      to_agent := to_agent, message_type := message_type,
      content := content, priority := priority,
      in_reply_to := in_reply_to, read := false }
  (msg, { s with messages := s.messages ++ [msg] })

/-- The per-message loop body of `StateManager.get_inbox`
(state.py lines 96-110), as structural recursion over the message list. -/
def inbox_filter (agent : AgentRole) (unread_only : Bool) :
    List Message → List Message
  | [] => []
  | msg :: rest =>
    let is_for_agent := msg.to_agent == some agent || msg.to_agent == none
    let is_from_self := msg.from_agent == agent
    let tail := inbox_filter agent unread_only rest
    if is_for_agent && !is_from_self then
      if unread_only && msg.read then tail else msg :: tail
    else tail

/-- Embeds `StateManager.get_inbox`: a pure read of `state.messages`. -/
def get_inbox (s : ConversationState) (agent : AgentRole)
    (unread_only : Bool) : List Message :=
  inbox_filter agent unread_only s.messages

/-- Embeds `StateManager.get_task` (state.py lines 206-211): first task with the id. -/
def get_task (s : ConversationState) (task_id : String) : Option Task :=
  s.tasks.find? (fun t => t.id == task_id)

/-- Embeds `task.claimed_by is not None and task.claimed_by != agent`
(state.py line 158). -/
def claimedByOther (task : Task) (agent : AgentRole) : Bool :=
  match task.claimed_by with
  | some b => b != agent
  | none => false

/-- One iteration of the dependency check of `claim_task`
(state.py lines 162-165): `if dep_task and dep_task.status != COMPLETED`.
A `dep_id` that resolves to no task is falsy in Python and does NOT block. -/
def dependencyBlocked (s : ConversationState) (dep_id : String) : Bool :=
  match get_task s dep_id with
  | some dep_task => dep_task.status != TaskStatus.completed
  | none => false

/-- Embeds `StateManager.claim_task` (state.py lines 154-177). The Python loop
stops at the first task with the given id and returns from inside the
loop, so it is: find the first match, run the guards against the
pre-mutation state, then update that task in place. -/
def claim_task (s : ConversationState) (task_id : String)
    (agent : AgentRole) (now : Nat) : Option Task × ConversationState :=
  match s.tasks.find? (fun t => t.id == task_id) with
  | none => (none, s)
  | some task =>
    if claimedByOther task agent then (none, s)
    else if task.dependencies.any (fun dep_id => dependencyBlocked s dep_id) then
      (none, s)
    else
      let task' := { task with claimed_by := some agent,
                               status := TaskStatus.in_progress,
                               updated_at := now }
      (some task',
       { s with tasks := replaceFirstBy (fun t => t.id == task_id) task' s.tasks })

/-- Embeds `StateManager.complete_task` (state.py lines 179-204). `files_modified`
is the already-defaulted list (`files_modified or []`). -/
def complete_task (s : ConversationState) (task_id : String)
    (agent : AgentRole) (result : String) (files_modified : List String)
    (now : Nat) : Option Task × ConversationState :=
  match s.tasks.find? (fun t => t.id == task_id) with
  | none => (none, s)
  | some task =>
    if task.claimed_by != some agent then (none, s)
    else
      let task' := { task with status := TaskStatus.completed,
                               result := some result,
                               files_modified := files_modified,
                               updated_at := now }
      (some task',
       { s with tasks := replaceFirstBy (fun t => t.id == task_id) task' s.tasks })

/-- Embeds `StateManager.submit_review` (state.py lines 260-284): the loop acts on
the first review with `review.id == review_id and review.to_agent == agent`
(a conjunctive guard: a review with the right id but the wrong agent is
skipped, not rejected), sets verdict and feedback unconditionally — there
is no check that the verdict is still unset — and sends a `review_result`
message back to the requester. `msg_id`/`now` are the fresh uuid and
timestamp of that message. -/
def submit_review (s : ConversationState) (review_id : String)
    (agent : AgentRole) (verdict feedback : String)
    (msg_id : String) (now : Nat) :
    Option ReviewRequest × ConversationState :=
  match s.reviews.find? (fun r => r.id == review_id && r.to_agent == agent) with
  | none => (none, s)
  | some review =>
    let review' := { review with verdict := some verdict,
                                 feedback := some feedback }
    let reviews' := replaceFirstBy (fun r => r.id == review_id && r.to_agent == agent) review' s.reviews
    let s₁ := { s with reviews := reviews' }
    let s₂ := (send_message s₁ agent (some review.from_agent)
      ("[REVIEW RESULT " ++ review_id ++ "]\n\n**Verdict:** " ++ verdict ++ "\n\n" ++ feedback)
      MessageType.review_result Priority.high none msg_id now).2
    (some review', s₂)

/-- Embeds `StateManager.cast_vote` (state.py lines 332-340): the loop scans the
active votes in order; a vote whose topic matches but whose option list
does not contain `choice` is skipped (the loop continues — there is no
`else return`), so the first vote with matching topic AND a valid choice
receives the cast; `None` is returned only when no such vote exists. -/
def cast_vote (s : ConversationState) (topic : String) (agent : AgentRole)
    (choice : String) : Option Vote × ConversationState :=
  match s.active_votes.find? (fun v => v.topic == topic && v.options.contains choice) with
  | none => (none, s)
  | some vote =>
    let vote' := { vote with votes := dictSet vote.votes agent.value choice }
    let votes' := replaceFirstBy (fun v => v.topic == topic && v.options.contains choice) vote' s.active_votes
    (some vote', { s with active_votes := votes' })

/-!
## The structured state document

`StateManager._save` writes `self._state.model_dump_json(...)` and
`StateManager.initialize` reads it back with
`ConversationState(**json.loads(...))`.  The document is modelled as a
`Json` tree; pydantic serialises `str`-valued enums as their value
strings, `datetime` as an ISO-8601 text form (here: the decimal text of
the `Nat` timestamp), `None` as `null`, lists as arrays and
`dict[str, str]` as an object, and validates all of it on load.
-/

/-- A structured JSON-like document. -/
inductive Json where
  | null : Json
  | bool : Bool → Json
  | str : String → Json
  | arr : List Json → Json
  | obj : List (String × Json) → Json

/-- The character of a decimal digit. -/
def digitChar (d : Nat) : Char := Char.ofNat (48 + d)

/-- Parse one decimal digit character. -/
def charDigit (c : Char) : Option Nat :=
  if 48 ≤ c.toNat ∧ c.toNat ≤ 57 then some (c.toNat - 48) else none

/-- Parse a run of decimal digit characters. -/
def parseDigits : List Char → Option (List Nat)
  | [] => some []
  | c :: rest =>
    match charDigit c, parseDigits rest with
    | some d, some ds => some (d :: ds)
    | _, _ => none

/-- The textual form of a timestamp (most significant digit first). -/
def timeToString (n : Nat) : String :=
  if n = 0 then "0" else String.mk (((Nat.digits 10 n).map digitChar).reverse)

/-- Fold an most-significant-first digit list into the number it denotes. -/
def digitsToNat : List Nat → Option Nat
  | [] => none
  | d :: rest => some ((d :: rest).foldl (fun acc dg => 10 * acc + dg) 0)

/-- Parse a timestamp back from its textual form. -/
def timeFromString (s : String) : Option Nat :=
  (parseDigits s.data).bind digitsToNat

/-- Validate an `AgentRole` value string, as pydantic does on load. -/
def parseAgent (s : String) : Option AgentRole :=
  if s == "claude" then some .claude
  else if s == "gemini" then some .gemini
  else if s == "codex" then some .codex
  else if s == "copilot" then some .copilot
  else none

/-- Validate a `Priority` value string. -/
def parsePriority (s : String) : Option Priority :=
  if s == "low" then some .low
  else if s == "normal" then some .normal
  else if s == "high" then some .high
  else if s == "urgent" then some .urgent
  else none

/-- Validate a `TaskStatus` value string. -/
def parseTaskStatus (s : String) : Option TaskStatus :=
  if s == "pending" then some .pending
  else if s == "claimed" then some .claimed
  else if s == "in_progress" then some .in_progress
  else if s == "review" then some .review
  else if s == "completed" then some .completed
  else if s == "blocked" then some .blocked
  else none

/-- Validate a `MessageType` value string. -/
def parseMessageType (s : String) : Option MessageType :=
  if s == "task" then some .task
  else if s == "question" then some .question
  else if s == "response" then some .response
  else if s == "review_request" then some .review_request
  else if s == "review_result" then some .review_result
  else if s == "broadcast" then some .broadcast
  else if s == "escalation" then some .escalation
  else none

/-- Read a JSON string node. -/
def Json.asString : Json → Option String
  | .str s => some s
  | _ => none

/-- Read a JSON boolean node. -/
def Json.asBool : Json → Option Bool
  | .bool b => some b
  | _ => none

/-- Embeds `Optional[str]`: `None` serialises to `null`. -/
def optStrToJson : Option String → Json
  | none => Json.null
  | some s => Json.str s

/-- Load an `Optional[str]` field. -/
def optStrFromJson : Json → Option (Option String)
  | Json.null => some none
  | Json.str s => some (some s)
  | _ => none

/-- Embeds `Optional[AgentRole]`. -/
def optAgentToJson : Option AgentRole → Json
  | none => Json.null
  | some a => Json.str a.value

/-- Load an `Optional[AgentRole]` field, validating the role name. -/
def optAgentFromJson : Json → Option (Option AgentRole)
  | Json.null => some none
  | Json.str s => (parseAgent s).map some
  | _ => none

/-- Embeds `Optional[datetime]`. -/
def optTimeToJson : Option Nat → Json
  | none => Json.null
  | some t => Json.str (timeToString t)

/-- Load an `Optional[datetime]` field. -/
def optTimeFromJson : Json → Option (Option Nat)
  | Json.null => some none
  | Json.str s => (timeFromString s).map some
  | _ => none

/-- Embeds `list[str]`. -/
def strListToJson (l : List String) : Json := Json.arr (l.map Json.str)

/-- Decode a list of JSON string nodes. -/
def decodeStrings : List Json → Option (List String)
  | [] => some []
  | j :: rest =>
    (Json.asString j).bind fun s => (decodeStrings rest).map fun ss => s :: ss

/-- Load a `list[str]` field. -/
def strListFromJson : Json → Option (List String)
  | Json.arr items => decodeStrings items
  | _ => none

/-- Embeds `dict[str, str]`, keeping insertion order. -/
def dictToJson (d : List (String × String)) : Json :=
  Json.obj (d.map fun p => (p.1, Json.str p.2))

/-- Decode the members of a string-to-string object. -/
def decodeStrPairs : List (String × Json) → Option (List (String × String))
  | [] => some []
  | (k, j) :: rest =>
    (Json.asString j).bind fun v =>
      (decodeStrPairs rest).map fun ps => (k, v) :: ps

/-- Load a `dict[str, str]` field. -/
def dictFromJson : Json → Option (List (String × String))
  | Json.obj fields => decodeStrPairs fields
  | _ => none

/-- Serialise a `Message` (field names as in models.py). -/
def Message.toJson (m : Message) : Json :=
  Json.obj [
    ("id", Json.str m.id),
    ("timestamp", Json.str (timeToString m.timestamp)),
    ("from_agent", Json.str m.from_agent.value),
    ("to_agent", optAgentToJson m.to_agent),
    ("message_type", Json.str m.message_type.value),
    ("content", Json.str m.content),
    ("priority", Json.str m.priority.value),
    ("in_reply_to", optStrToJson m.in_reply_to),
    ("read", Json.bool m.read)
  ]

/-- Load and validate a `Message`. -/
def Message.fromJson : Json → Option Message
  | Json.obj fields => do
    let id ← (fields.lookup "id").bind Json.asString
    let tsStr ← (fields.lookup "timestamp").bind Json.asString
    let timestamp ← timeFromString tsStr
    let fromStr ← (fields.lookup "from_agent").bind Json.asString
    let from_agent ← parseAgent fromStr
    let to_agent ← (fields.lookup "to_agent").bind optAgentFromJson
    let typeStr ← (fields.lookup "message_type").bind Json.asString
    let message_type ← parseMessageType typeStr
    let content ← (fields.lookup "content").bind Json.asString
    let priStr ← (fields.lookup "priority").bind Json.asString
    let priority ← parsePriority priStr
    let in_reply_to ← (fields.lookup "in_reply_to").bind optStrFromJson
    let read ← (fields.lookup "read").bind Json.asBool
    pure { id, timestamp, from_agent, to_agent, message_type, content,
           priority, in_reply_to, read }
  | _ => none

/-- Serialise a `Task`. -/
def Task.toJson (t : Task) : Json :=
  Json.obj [
    ("id", Json.str t.id),
    ("created_at", Json.str (timeToString t.created_at)),
    ("updated_at", Json.str (timeToString t.updated_at)),
    ("title", Json.str t.title),
    ("description", Json.str t.description),
    ("status", Json.str t.status.value),
    ("created_by", Json.str t.created_by.value),
    ("assigned_to", optAgentToJson t.assigned_to),
    ("claimed_by", optAgentToJson t.claimed_by),
    ("dependencies", strListToJson t.dependencies),
    ("result", optStrToJson t.result),
    ("files_modified", strListToJson t.files_modified)
  ]

/-- Load and validate a `Task`. -/
def Task.fromJson : Json → Option Task
  | Json.obj fields => do
    let id ← (fields.lookup "id").bind Json.asString
    let caStr ← (fields.lookup "created_at").bind Json.asString
    let created_at ← timeFromString caStr
    let uaStr ← (fields.lookup "updated_at").bind Json.asString
    let updated_at ← timeFromString uaStr
    let title ← (fields.lookup "title").bind Json.asString
    let description ← (fields.lookup "description").bind Json.asString
    let stStr ← (fields.lookup "status").bind Json.asString
    let status ← parseTaskStatus stStr
    let cbStr ← (fields.lookup "created_by").bind Json.asString
    let created_by ← parseAgent cbStr
    let assigned_to ← (fields.lookup "assigned_to").bind optAgentFromJson
    let claimed_by ← (fields.lookup "claimed_by").bind optAgentFromJson
    let dependencies ← (fields.lookup "dependencies").bind strListFromJson
    let result ← (fields.lookup "result").bind optStrFromJson
    let files_modified ← (fields.lookup "files_modified").bind strListFromJson
    pure { id, created_at, updated_at, title, description, status,
           created_by, assigned_to, claimed_by, dependencies, result,
           files_modified }
  | _ => none

/-- Serialise a `ReviewRequest`. -/
def ReviewRequest.toJson (r : ReviewRequest) : Json :=
  Json.obj [
    ("id", Json.str r.id),
    ("timestamp", Json.str (timeToString r.timestamp)),
    ("from_agent", Json.str r.from_agent.value),
    ("to_agent", Json.str r.to_agent.value),
    ("task_id", optStrToJson r.task_id),
    ("content", Json.str r.content),
    ("files", strListToJson r.files),
    ("verdict", optStrToJson r.verdict),
    ("feedback", optStrToJson r.feedback)
  ]

/-- Load and validate a `ReviewRequest`. -/
def ReviewRequest.fromJson : Json → Option ReviewRequest
  | Json.obj fields => do
    let id ← (fields.lookup "id").bind Json.asString
    let tsStr ← (fields.lookup "timestamp").bind Json.asString
    let timestamp ← timeFromString tsStr
    let fromStr ← (fields.lookup "from_agent").bind Json.asString
    let from_agent ← parseAgent fromStr
    let toStr ← (fields.lookup "to_agent").bind Json.asString
    let to_agent ← parseAgent toStr
    let task_id ← (fields.lookup "task_id").bind optStrFromJson
    let content ← (fields.lookup "content").bind Json.asString
    let files ← (fields.lookup "files").bind strListFromJson
    let verdict ← (fields.lookup "verdict").bind optStrFromJson
    let feedback ← (fields.lookup "feedback").bind optStrFromJson
    pure { id, timestamp, from_agent, to_agent, task_id, content, files,
           verdict, feedback }
  | _ => none

/-- Serialise a `Vote`. -/
def Vote.toJson (v : Vote) : Json :=
  Json.obj [
    ("topic", Json.str v.topic),
    ("options", strListToJson v.options),
    ("votes", dictToJson v.votes),
    ("deadline", optTimeToJson v.deadline),
    ("result", optStrToJson v.result)
  ]

/-- Load and validate a `Vote`. -/
def Vote.fromJson : Json → Option Vote
  | Json.obj fields => do
    let topic ← (fields.lookup "topic").bind Json.asString
    let options ← (fields.lookup "options").bind strListFromJson
    let votes ← (fields.lookup "votes").bind dictFromJson
    let deadline ← (fields.lookup "deadline").bind optTimeFromJson
    let result ← (fields.lookup "result").bind optStrFromJson
    pure { topic, options, votes, deadline, result }
  | _ => none

/-- Decode an array of messages. -/
def decodeMessages : List Json → Option (List Message)
  | [] => some []
  | j :: rest =>
    (Message.fromJson j).bind fun m =>
      (decodeMessages rest).map fun ms => m :: ms

/-- Decode an array of tasks. -/
def decodeTasks : List Json → Option (List Task)
  | [] => some []
  | j :: rest =>
    (Task.fromJson j).bind fun t =>
      (decodeTasks rest).map fun ts => t :: ts

/-- Decode an array of review requests. -/
def decodeReviews : List Json → Option (List ReviewRequest)
  | [] => some []
  | j :: rest =>
    (ReviewRequest.fromJson j).bind fun r =>
      (decodeReviews rest).map fun rs => r :: rs

/-- Decode an array of votes. -/
def decodeVotes : List Json → Option (List Vote)
  | [] => some []
  | j :: rest =>
    (Vote.fromJson j).bind fun v =>
      (decodeVotes rest).map fun vs => v :: vs

/-- Serialise the whole `ConversationState`, as `model_dump_json` does in
`StateManager._save` (state.py lines 47-50). -/
def ConversationState.toJson (s : ConversationState) : Json :=
  Json.obj [
    ("session_id", Json.str s.session_id),
    ("started_at", Json.str (timeToString s.started_at)),
    ("initial_prompt", optStrToJson s.initial_prompt),
    ("messages", Json.arr (s.messages.map Message.toJson)),
    ("tasks", Json.arr (s.tasks.map Task.toJson)),
    ("reviews", Json.arr (s.reviews.map ReviewRequest.toJson)),
    ("context", dictToJson s.context),
    ("active_votes", Json.arr (s.active_votes.map Vote.toJson)),
    ("human_intervention_requested", Json.bool s.human_intervention_requested),
    ("escalation_reason", optStrToJson s.escalation_reason)
  ]

/-- Load and validate a whole `ConversationState`, as
`ConversationState(**json.loads(...))` does on engine start
(state.py lines 37-40). -/
def ConversationState.fromJson : Json → Option ConversationState
  | Json.obj fields => do
    let session_id ← (fields.lookup "session_id").bind Json.asString
    let saStr ← (fields.lookup "started_at").bind Json.asString
    let started_at ← timeFromString saStr
    let initial_prompt ← (fields.lookup "initial_prompt").bind optStrFromJson
    let msgsJ ← fields.lookup "messages"
    let messages ← match msgsJ with
      | Json.arr items => decodeMessages items
      | _ => none
    let tasksJ ← fields.lookup "tasks"
    let tasks ← match tasksJ with
      | Json.arr items => decodeTasks items
      | _ => none
    let reviewsJ ← fields.lookup "reviews"
    let reviews ← match reviewsJ with
      | Json.arr items => decodeReviews items
      | _ => none
    let context ← (fields.lookup "context").bind dictFromJson
    let votesJ ← fields.lookup "active_votes"
    let active_votes ← match votesJ with
      | Json.arr items => decodeVotes items
      | _ => none
    let human_intervention_requested ←
      (fields.lookup "human_intervention_requested").bind Json.asBool
    let escalation_reason ← (fields.lookup "escalation_reason").bind optStrFromJson
    pure { session_id, started_at, initial_prompt, messages, tasks,
           reviews, context, active_votes, human_intervention_requested,
           escalation_reason }
  | _ => none

/-!
## Concrete states for witnesses and counterexamples
-/

/-- A minimal pending task. -/
def sampleTask : Task :=
  { id := "t1", created_at := 0, updated_at := 0, title := "T",
    description := "D", status := .pending, created_by := .claude,
    assigned_to := none, claimed_by := none, dependencies := [],
    result := none, files_modified := [] }

/-- The empty conversation state (fresh session). -/
def emptyState : ConversationState :=
  { session_id := "s0", started_at := 0, initial_prompt := none,
    messages := [], tasks := [], reviews := [], context := [],
    active_votes := [], human_intervention_requested := false,
    escalation_reason := none }

/-- An unclaimed task whose only dependency id resolves to no task. -/
def danglingDepTask : Task :=
  { sampleTask with dependencies := ["missing"] }

/-- The state holding just `danglingDepTask`. -/
def danglingDepState : ConversationState :=
  { emptyState with tasks := [danglingDepTask] }

/-- A completed task, claimed by `claude`, listing its own id as a dependency. -/
def selfDepTask : Task :=
  { sampleTask with
    id := "t2", dependencies := ["t2"],
    status := .completed, claimed_by := some .claude }

/-- The state holding just `selfDepTask`. -/
def selfDepState : ConversationState :=
  { emptyState with tasks := [selfDepTask] }

/-- One plain unclaimed task with no dependencies. -/
def plainTaskState : ConversationState :=
  { emptyState with tasks := [sampleTask] }

/-- The sample task claimed by `claude` and in progress. -/
def claimedTask : Task :=
  { sampleTask with claimed_by := some .claude, status := .in_progress }

/-- One task already claimed by `claude` and in progress. -/
def claimedTaskState : ConversationState :=
  { emptyState with tasks := [claimedTask] }

/-- A review request from `copilot` to `codex` with no verdict yet. -/
def sampleReview : ReviewRequest :=
  { id := "r1", timestamp := 0, from_agent := .copilot, to_agent := .codex,
    task_id := none, content := "diff", files := [], verdict := none,
    feedback := none }

/-- The sample review after a verdict has already been recorded. -/
def decidedReview : ReviewRequest :=
  { sampleReview with verdict := some "APPROVED", feedback := some "ok" }

/-- The state holding just `decidedReview`. -/
def verdictSetState : ConversationState :=
  { emptyState with reviews := [decidedReview] }

/-- A state with one pending review. -/
def pendingReviewState : ConversationState :=
  { emptyState with reviews := [sampleReview] }

/-- An active vote on topic "lang" whose only option is "a". -/
def voteA : Vote :=
  { topic := "lang", options := ["a"], votes := [], deadline := none,
    result := none }

/-- A later active vote on the same topic "lang" whose only option is "b". -/
def voteB : Vote :=
  { topic := "lang", options := ["b"], votes := [], deadline := none,
    result := none }

/-- Two active votes sharing the topic "lang" with disjoint option lists. -/
def dupTopicState : ConversationState :=
  { emptyState with active_votes := [voteA, voteB] }

/-- A single active vote with two options. -/
def langVote : Vote :=
  { topic := "lang", options := ["go", "rust"], votes := [],
    deadline := none, result := none }

/-- The state holding just `langVote`. -/
def singleVoteState : ConversationState :=
  { emptyState with active_votes := [langVote] }

/-- An unread broadcast message from `claude`. -/
def broadcastMsg : Message :=
  { id := "m1", timestamp := 1, from_agent := .claude, to_agent := none,
    message_type := .broadcast, content := "hello", priority := .normal,
    in_reply_to := none, read := false }

/-- An already-read direct message from `gemini` to `codex`. -/
def directMsg : Message :=
  { id := "m2", timestamp := 2, from_agent := .gemini,
    to_agent := some .codex, message_type := .task, content := "work",
    priority := .high, in_reply_to := none, read := true }

/-- The broadcast followed by the direct message. -/
def inboxState : ConversationState :=
  { emptyState with messages := [broadcastMsg, directMsg] }

/-!
## Helper lemmas
-/

theorem find?_replaceFirstBy_self {α : Type} {p : α → Bool} {x' : α}
    {l : List α} {t : α} (h : l.find? p = some t) (hx : p x' = true) :
    (replaceFirstBy p x' l).find? p = some x' := by
  induction l with
  | nil => simp at h
  | cons a rest ih =>
    by_cases ha : p a = true
    · simp [replaceFirstBy, ha, List.find?_cons_of_pos, hx]
    · have ha' : ¬ p a := by simp [ha]
      rw [List.find?_cons_of_neg _ ha'] at h
      simp only [replaceFirstBy, if_neg (by simp [ha] : ¬ p a = true)]
      rw [List.find?_cons_of_neg _ ha']
      exact ih h

theorem replaceFirstBy_self {α : Type} {p : α → Bool} {l : List α} {t : α}
    (h : l.find? p = some t) : replaceFirstBy p t l = l := by
  induction l with
  | nil => rfl
  | cons a rest ih =>
    by_cases ha : p a = true
    · rw [List.find?_cons_of_pos _ ha] at h
      injection h with h
      subst h
      simp [replaceFirstBy, ha]
    · have ha' : ¬ p a := by simp [ha]
      rw [List.find?_cons_of_neg _ ha'] at h
      simp [replaceFirstBy, ha, ih h]

theorem find?_replaceFirstBy_other {α : Type} {p q : α → Bool} {x' : α}
    {l : List α} (hl : ∀ a ∈ l, p a = true → q a = false)
    (hx : q x' = false) :
    (replaceFirstBy p x' l).find? q = l.find? q := by
  induction l with
  | nil => rfl
  | cons a rest ih =>
    by_cases ha : p a = true
    · have hqa : q a = false := hl a (by simp) ha
      simp only [replaceFirstBy, if_pos ha]
      rw [List.find?_cons_of_neg _ (by simp [hx]),
          List.find?_cons_of_neg _ (by simp [hqa])]
    · simp only [replaceFirstBy, if_neg ha]
      by_cases hqa : q a = true
      · rw [List.find?_cons_of_pos _ hqa, List.find?_cons_of_pos _ hqa]
      · rw [List.find?_cons_of_neg _ hqa, List.find?_cons_of_neg _ hqa]
        exact ih (fun b hb => hl b (List.mem_cons_of_mem _ hb))

theorem find?_and_of_find? {α : Type} {p q : α → Bool} {l : List α} {v : α}
    (h : l.find? p = some v) (hq : q v = true) :
    l.find? (fun x => p x && q x) = some v := by
  induction l with
  | nil => simp at h
  | cons a rest ih =>
    by_cases ha : p a = true
    · rw [List.find?_cons_of_pos _ ha] at h
      injection h with h
      subst h
      rw [List.find?_cons_of_pos]
      simp [ha, hq]
    · have ha' : ¬ p a := by simp [ha]
      rw [List.find?_cons_of_neg _ ha'] at h
      rw [List.find?_cons_of_neg _ (by simp [ha])]
      exact ih h

theorem find?_and_none_of_countP_zero {α : Type} {p q : α → Bool}
    {l : List α} (h : l.countP p = 0) :
    l.find? (fun x => p x && q x) = none := by
  rw [List.find?_eq_none]
  intro x hx
  have hnp := List.countP_eq_zero.mp h x hx
  simp only [Bool.and_eq_true, not_and]
  intro hp
  exact absurd hp hnp

theorem find?_and_of_unique {α : Type} {p q : α → Bool} {l : List α} {v : α}
    (h1 : l.countP p = 1) (h2 : l.find? p = some v) :
    l.find? (fun x => p x && q x) =
      (if q v = true then some v else none) := by
  induction l with
  | nil => simp at h2
  | cons a rest ih =>
    by_cases ha : p a = true
    · rw [List.find?_cons_of_pos _ ha] at h2
      injection h2 with h2
      subst h2
      have hrest : rest.countP p = 0 := by
        rw [List.countP_cons, if_pos ha] at h1
        omega
      by_cases hq : q a = true
      · rw [if_pos hq, List.find?_cons_of_pos]
        simp [ha, hq]
      · have hq' : q a = false := by
          cases hx : q a
          · rfl
          · exact absurd hx hq
        rw [if_neg hq, List.find?_cons_of_neg _ (by simp [ha, hq'])]
        exact find?_and_none_of_countP_zero hrest
    · have ha' : ¬ p a := by simp [ha]
      rw [List.find?_cons_of_neg _ ha'] at h2
      rw [List.countP_cons, if_neg ha] at h1
      rw [List.find?_cons_of_neg _ (by simp [ha])]
      exact ih (by omega) h2

theorem dictSet_lookup_overwrite {k val : String} :
    ∀ (d : List (String × String)),
      d.any (fun p => p.1 == k) = true →
      List.lookup k (d.map (fun p => if p.1 == k then (k, val) else p)) = some val := by
  intro d
  induction d with
  | nil => intro h; simp at h
  | cons a d' ih =>
    intro h
    by_cases h1 : a.1 = k
    · rw [List.map_cons, if_pos (by simp [h1])]
      simp [List.lookup]
    · have h1' : (a.1 == k) = false := by simp [h1]
      have hk : (k == a.1) = false := by
        rw [beq_eq_false_iff_ne]
        exact fun hh => h1 hh.symm
      have h' : d'.any (fun p => p.1 == k) = true := by
        rw [List.any_cons, h1', Bool.false_or] at h
        exact h
      rw [List.map_cons, if_neg (by simp [h1])]
      simp only [List.lookup, hk]
      exact ih h'

theorem dictSet_lookup_append {k val : String} :
    ∀ (d : List (String × String)),
      d.any (fun p => p.1 == k) = false →
      List.lookup k (d ++ [(k, val)]) = some val := by
  intro d
  induction d with
  | nil => simp [List.lookup]
  | cons a d' ih =>
    intro h
    rw [List.any_cons, Bool.or_eq_false_iff] at h
    have hk : (k == a.1) = false := by
      rw [beq_eq_false_iff_ne]
      intro hh
      rw [hh.symm] at h
      simp at h
    simp only [List.cons_append, List.lookup, hk]
    exact ih h.2

theorem dictSet_lookup (d : List (String × String)) (k val : String) :
    List.lookup k (dictSet d k val) = some val := by
  unfold dictSet
  by_cases h : d.any (fun p => p.1 == k) = true
  · rw [if_pos h]
    exact dictSet_lookup_overwrite d h
  · rw [if_neg h]
    apply dictSet_lookup_append
    cases hx : d.any (fun p => p.1 == k)
    · rfl
    · exact absurd hx h

theorem countP_map_overwrite {k val : String} (d : List (String × String)) :
    (d.map (fun p => if p.1 == k then (k, val) else p)).countP
        (fun p => p.1 == k) = d.countP (fun p => p.1 == k) := by
  induction d with
  | nil => rfl
  | cons a d' ih =>
    by_cases h1 : a.1 = k
    · rw [List.map_cons, if_pos (by simp [h1]), List.countP_cons,
         List.countP_cons, ih]
      simp [h1]
    · rw [List.map_cons, if_neg (by simp [h1]), List.countP_cons,
         List.countP_cons, ih]

theorem dictSet_countP (d : List (String × String)) (k val : String)
    (h : d.countP (fun p => p.1 == k) ≤ 1) :
    (dictSet d k val).countP (fun p => p.1 == k) = 1 := by
  unfold dictSet
  by_cases hany : d.any (fun p => p.1 == k) = true
  · rw [if_pos hany, countP_map_overwrite]
    have hpos : 0 < d.countP (fun p => p.1 == k) := by
      rw [List.countP_pos_iff]
      obtain ⟨x, hx, hpx⟩ := List.any_eq_true.mp hany
      exact ⟨x, hx, hpx⟩
    omega
  · rw [if_neg hany, List.countP_append]
    have hany' : d.any (fun p => p.1 == k) = false := by
      cases hx : d.any (fun p => p.1 == k)
      · rfl
      · exact absurd hx hany
    have h0 : d.countP (fun p => p.1 == k) = 0 := by
      rw [List.countP_eq_zero]
      exact List.any_eq_false.mp hany'
    rw [h0]
    simp [List.countP_cons]

theorem charDigit_digitChar : ∀ d, d < 10 → charDigit (digitChar d) = some d := by
  decide

theorem parseDigits_map_digitChar :
    ∀ (l : List Nat), (∀ d ∈ l, d < 10) →
      parseDigits (l.map digitChar) = some l := by
  intro l
  induction l with
  | nil => intro _; rfl
  | cons d rest ih =>
    intro h
    have hd : charDigit (digitChar d) = some d :=
      charDigit_digitChar d (h d (by simp))
    have hrest : parseDigits (rest.map digitChar) = some rest :=
      ih (fun x hx => h x (by simp [hx]))
    simp [parseDigits, hd, hrest]

theorem foldl_eq_ofDigits :
    ∀ (L : List Nat),
      L.reverse.foldl (fun acc d => 10 * acc + d) 0 = Nat.ofDigits 10 L := by
  intro L
  rw [List.foldl_reverse]
  induction L with
  | nil => simp [Nat.ofDigits]
  | cons d L' ih =>
    rw [List.foldr_cons, ih, Nat.ofDigits_cons]
    omega

theorem timeFromString_timeToString (n : Nat) :
    timeFromString (timeToString n) = some n := by
  by_cases h0 : n = 0
  · subst h0
    decide
  · rw [timeToString, if_neg h0]
    rw [timeFromString]
    have hdata : (String.mk (((Nat.digits 10 n).map digitChar).reverse)).data
        = ((Nat.digits 10 n).map digitChar).reverse := rfl
    rw [hdata, ← List.map_reverse]
    rw [parseDigits_map_digitChar ((Nat.digits 10 n).reverse)
        (fun d hd => Nat.digits_lt_base (by norm_num)
          (List.mem_reverse.mp hd))]
    have hne : (Nat.digits 10 n).reverse ≠ [] := by
      simp [Nat.digits_ne_nil_iff_ne_zero.mpr h0]
    obtain ⟨d, ds, hds⟩ : ∃ d ds, (Nat.digits 10 n).reverse = d :: ds := by
      cases hrev : (Nat.digits 10 n).reverse with
      | nil => exact absurd hrev hne
      | cons d ds => exact ⟨d, ds, rfl⟩
    rw [hds, Option.some_bind, digitsToNat]
    have hfold := foldl_eq_ofDigits (Nat.digits 10 n)
    rw [hds] at hfold
    rw [hfold, Nat.ofDigits_digits]

theorem parseAgent_value (a : AgentRole) : parseAgent a.value = some a := by
  cases a <;> rfl

theorem parsePriority_value (p : Priority) : parsePriority p.value = some p := by
  cases p <;> rfl

theorem parseTaskStatus_value (st : TaskStatus) :
    parseTaskStatus st.value = some st := by
  cases st <;> rfl

theorem parseMessageType_value (mt : MessageType) :
    parseMessageType mt.value = some mt := by
  cases mt <;> rfl

theorem optStrFromJson_toJson (o : Option String) :
    optStrFromJson (optStrToJson o) = some o := by
  cases o <;> rfl

theorem optAgentFromJson_toJson (o : Option AgentRole) :
    optAgentFromJson (optAgentToJson o) = some o := by
  cases o with
  | none => rfl
  | some a => simp [optAgentToJson, optAgentFromJson, parseAgent_value]

theorem optTimeFromJson_toJson (o : Option Nat) :
    optTimeFromJson (optTimeToJson o) = some o := by
  cases o with
  | none => rfl
  | some t => simp [optTimeToJson, optTimeFromJson, timeFromString_timeToString]

theorem decodeStrings_map (l : List String) :
    decodeStrings (l.map Json.str) = some l := by
  induction l with
  | nil => rfl
  | cons s rest ih => simp [decodeStrings, Json.asString, ih]

theorem strListFromJson_toJson (l : List String) :
    strListFromJson (strListToJson l) = some l := by
  simp [strListToJson, strListFromJson, decodeStrings_map]

theorem decodeStrPairs_map (d : List (String × String)) :
    decodeStrPairs (d.map fun p => (p.1, Json.str p.2)) = some d := by
  induction d with
  | nil => rfl
  | cons p d' ih =>
    cases p
    simp [decodeStrPairs, Json.asString, ih]

theorem dictFromJson_toJson (d : List (String × String)) :
    dictFromJson (dictToJson d) = some d := by
  simp [dictToJson, dictFromJson, decodeStrPairs_map]

theorem message_fromJson_toJson (m : Message) :
    Message.fromJson (Message.toJson m) = some m := by
  cases m
  simp [Message.toJson, Message.fromJson, List.lookup, Json.asString,
        Json.asBool, timeFromString_timeToString, parseAgent_value,
        parsePriority_value, parseMessageType_value, optStrFromJson_toJson,
        optAgentFromJson_toJson]

theorem task_fromJson_toJson (t : Task) :
    Task.fromJson (Task.toJson t) = some t := by
  cases t
  simp [Task.toJson, Task.fromJson, List.lookup, Json.asString,
        timeFromString_timeToString, parseAgent_value, parseTaskStatus_value,
        optStrFromJson_toJson, optAgentFromJson_toJson, strListFromJson_toJson]

theorem review_fromJson_toJson (r : ReviewRequest) :
    ReviewRequest.fromJson (ReviewRequest.toJson r) = some r := by
  cases r
  simp [ReviewRequest.toJson, ReviewRequest.fromJson, List.lookup,
        Json.asString, timeFromString_timeToString, parseAgent_value,
        optStrFromJson_toJson, strListFromJson_toJson]

theorem vote_fromJson_toJson (v : Vote) :
    Vote.fromJson (Vote.toJson v) = some v := by
  cases v
  simp [Vote.toJson, Vote.fromJson, List.lookup, Json.asString,
        strListFromJson_toJson, dictFromJson_toJson, optTimeFromJson_toJson,
        optStrFromJson_toJson]

theorem decodeMessages_map (l : List Message) :
    decodeMessages (l.map Message.toJson) = some l := by
  induction l with
  | nil => rfl
  | cons m rest ih => simp [decodeMessages, message_fromJson_toJson, ih]

theorem decodeTasks_map (l : List Task) :
    decodeTasks (l.map Task.toJson) = some l := by
  induction l with
  | nil => rfl
  | cons t rest ih => simp [decodeTasks, task_fromJson_toJson, ih]

theorem decodeReviews_map (l : List ReviewRequest) :
    decodeReviews (l.map ReviewRequest.toJson) = some l := by
  induction l with
  | nil => rfl
  | cons r rest ih => simp [decodeReviews, review_fromJson_toJson, ih]

theorem decodeVotes_map (l : List Vote) :
    decodeVotes (l.map Vote.toJson) = some l := by
  induction l with
  | nil => rfl
  | cons v rest ih => simp [decodeVotes, vote_fromJson_toJson, ih]

theorem dependencyBlocked_eq_false_iff (s : ConversationState) (dep : String) :
    dependencyBlocked s dep = false ↔
      ∀ dt, get_task s dep = some dt → dt.status = TaskStatus.completed := by
  unfold dependencyBlocked
  cases h : get_task s dep with
  | none => simp
  | some dt => simp [bne]

theorem claim_task_succeeds_eq (s : ConversationState) (tid : String)
    (agent : AgentRole) (now : Nat) (t : Task)
    (hfind : s.tasks.find? (fun x => x.id == tid) = some t)
    (hown : claimedByOther t agent = false)
    (hdeps : t.dependencies.any (fun d => dependencyBlocked s d) = false) :
    claim_task s tid agent now =
      (some { t with
              claimed_by := some agent,
              status := TaskStatus.in_progress, updated_at := now },
       { s with tasks := replaceFirstBy (fun x => x.id == tid)
                           { t with
                             claimed_by := some agent,
                             status := TaskStatus.in_progress,
                             updated_at := now } s.tasks }) := by
  unfold claim_task
  rw [hfind]
  simp [hown, hdeps]

theorem claim_task_success_inv (s : ConversationState) (tid : String)
    (agent : AgentRole) (now : Nat)
    (h : ((claim_task s tid agent now).1).isSome = true) :
    ∃ t, s.tasks.find? (fun x => x.id == tid) = some t
      ∧ claimedByOther t agent = false
      ∧ t.dependencies.any (fun d => dependencyBlocked s d) = false := by
  unfold claim_task at h
  split at h
  · simp at h
  · rename_i t hf
    by_cases ho : claimedByOther t agent = true
    · rw [if_pos ho] at h
      simp at h
    · by_cases hd : (t.dependencies.any fun d => dependencyBlocked s d) = true
      · rw [if_neg ho, if_pos hd] at h
        simp at h
      · exact ⟨t, hf, by simpa using ho, by simpa using hd⟩

theorem inbox_filter_eq (agent : AgentRole) (unread_only : Bool) :
    ∀ (l : List Message), inbox_filter agent unread_only l =
      l.filter (fun m => (m.to_agent == some agent || m.to_agent == none)
        && !(m.from_agent == agent) && (!unread_only || !m.read)) := by
  intro l
  induction l with
  | nil => rfl
  | cons msg rest ih =>
    simp only [inbox_filter, List.filter, ih]
    cases hfa : (msg.to_agent == some agent || msg.to_agent == none) <;>
      cases hfs : (msg.from_agent == agent) <;>
        cases hr : msg.read <;> cases unread_only <;> simp_all

/-!
## The claims
-/

/-- C9: serialising a `ConversationState` to the structured state document
(as `StateManager._save` does via `model_dump_json`) and loading it back
(as `StateManager.initialize` does via `ConversationState(**data)`)
yields a state equal to the original field-for-field, including messages,
tasks, reviews, votes, the context map, escalation fields, closed-set
role/status/priority/type values and timestamps. -/
theorem state_document_round_trip (s : ConversationState) :
    ConversationState.fromJson (ConversationState.toJson s) = some s := by
  cases s
  simp [ConversationState.toJson, ConversationState.fromJson, List.lookup,
        Json.asString, Json.asBool, timeFromString_timeToString,
        optStrFromJson_toJson, decodeMessages_map, decodeTasks_map,
        decodeReviews_map, decodeVotes_map, dictFromJson_toJson]

/-- C10: whenever `claim_task`, `complete_task`, `submit_review` or
`cast_vote` returns the rejected result (`None` in Python, `none` here),
the `ConversationState` is left completely unchanged: no task, review,
vote or message is modified by that call. -/
theorem rejection_leaves_state_unchanged (s : ConversationState)
    (tid rid topic choice result verdict feedback msg_id : String)
    (agent : AgentRole) (files : List String) (now : Nat) :
    ((claim_task s tid agent now).1 = none → (claim_task s tid agent now).2 = s)
    ∧ ((complete_task s tid agent result files now).1 = none →
        (complete_task s tid agent result files now).2 = s)
    ∧ ((submit_review s rid agent verdict feedback msg_id now).1 = none →
        (submit_review s rid agent verdict feedback msg_id now).2 = s)
    ∧ ((cast_vote s topic agent choice).1 = none →
        (cast_vote s topic agent choice).2 = s) := by
  refine ⟨?_, ?_, ?_, ?_⟩
  · unfold claim_task
    split
    · intro _; rfl
    · rename_i t hf
      by_cases ho : claimedByOther t agent = true
      · simp [ho]
      · by_cases hd : (t.dependencies.any fun d => dependencyBlocked s d) = true
        · simp [ho, hd]
        · simp [ho, hd]
  · unfold complete_task
    split
    · intro _; rfl
    · rename_i t hf
      by_cases hcb : (t.claimed_by != some agent) = true
      · simp [hcb]
      · simp [hcb]
  · unfold submit_review
    split
    · intro _; rfl
    · rename_i r hf
      simp
  · unfold cast_vote
    split
    · intro _; rfl
    · rename_i v hf
      simp

/-- Witness for C10 at concrete rejected calls: a claim on an id that
does not exist, a completion by a non-owner, a review submission by the
wrong agent, and a vote cast with an invalid choice all leave the state
untouched. -/
theorem rejection_leaves_state_unchanged_witness :
    (claim_task emptyState "t9" AgentRole.claude 0).2 = emptyState
    ∧ (complete_task claimedTaskState "t1" AgentRole.gemini "done" [] 4).2
        = claimedTaskState
    ∧ (submit_review pendingReviewState "r1" AgentRole.claude "APPROVED" "ok"
        "m5" 7).2 = pendingReviewState
    ∧ (cast_vote singleVoteState "lang" AgentRole.codex "python").2
        = singleVoteState := by
  refine ⟨?_, ?_, ?_, ?_⟩
  · exact (rejection_leaves_state_unchanged emptyState "t9" "r" "tp" "c"
      "res" "v" "fb" "m" AgentRole.claude [] 0).1 (by decide)
  · exact (rejection_leaves_state_unchanged claimedTaskState "t1" "r" "tp"
      "c" "done" "v" "fb" "m" AgentRole.gemini [] 4).2.1 (by decide)
  · exact (rejection_leaves_state_unchanged pendingReviewState "tx" "r1"
      "tp" "c" "res" "APPROVED" "ok" "m5" AgentRole.claude [] 7).2.2.1
      (by decide)
  · exact (rejection_leaves_state_unchanged singleVoteState "tx" "r" "lang"
      "python" "res" "v" "fb" "m" AgentRole.codex [] 0).2.2.2 (by decide)

/-- C5: `get_inbox agent unreadOnly` returns exactly the messages whose
`to_agent` is `agent` or absent and whose `from_agent` is not `agent`, in
append (chronological) order, restricted to unread messages when
`unreadOnly` is set; being a pure function of the state it mutates
nothing.  In particular a message with absent `to_agent` is in every
agent's inbox except its sender's. -/
theorem get_inbox_characterization (s : ConversationState)
    (agent : AgentRole) (unread_only : Bool) :
    get_inbox s agent unread_only = s.messages.filter
        (fun m => (m.to_agent == some agent || m.to_agent == none)
          && !(m.from_agent == agent) && (!unread_only || !m.read))
    ∧ (∀ m ∈ s.messages, m.to_agent = none → ∀ b, b ≠ m.from_agent →
        (unread_only = false ∨ m.read = false) →
        m ∈ get_inbox s b unread_only) := by
  constructor
  · exact inbox_filter_eq agent unread_only s.messages
  · intro m hm hto b hb hu
    rw [get_inbox, inbox_filter_eq]
    rw [List.mem_filter]
    refine ⟨hm, ?_⟩
    have h1 : (m.to_agent == some b || m.to_agent == none) = true := by
      simp [hto]
    have h2 : (m.from_agent == b) = false := by
      rw [beq_eq_false_iff_ne]
      exact fun hh => hb hh.symm
    have h3 : (!unread_only || !m.read) = true := by
      rcases hu with h | h <;> simp [h]
    simp [h1, h2, h3]

/-- Witness for C5: in `inboxState`, `gemini`'s unread inbox is exactly
the broadcast (the read direct message to `codex` is filtered out), and
the broadcast is visible to `gemini` though absent from `claude`'s own
inbox predicate. -/
theorem get_inbox_characterization_witness :
    get_inbox inboxState AgentRole.gemini true = inboxState.messages.filter
        (fun m => (m.to_agent == some AgentRole.gemini || m.to_agent == none)
          && !(m.from_agent == AgentRole.gemini) && (!true || !m.read))
    ∧ broadcastMsg ∈ get_inbox inboxState AgentRole.gemini true := by
  constructor
  · exact (get_inbox_characterization inboxState AgentRole.gemini true).1
  · exact (get_inbox_characterization inboxState AgentRole.gemini true).2
      broadcastMsg (by decide) (by decide) AgentRole.gemini (by decide)
      (Or.inr (by decide))

/-- C3: `complete_task` rejects whenever the task does not exist or its
`claimed_by` differs from the calling agent (including the never-claimed
case, where `claimed_by` is unset); when `claimed_by` is the caller it
succeeds, setting status to `completed` and storing the result string and
modified-file list on the task. -/
theorem complete_task_ownership (s : ConversationState) (tid : String)
    (B : AgentRole) (result : String) (files : List String) (now : Nat) :
    (((complete_task s tid B result files now).1 = none) ↔
      ¬ ∃ t, s.tasks.find? (fun x => x.id == tid) = some t
        ∧ t.claimed_by = some B)
    ∧ (∀ t, s.tasks.find? (fun x => x.id == tid) = some t →
        t.claimed_by = some B →
        complete_task s tid B result files now =
          (some { t with
                  status := TaskStatus.completed, result := some result,
                  files_modified := files, updated_at := now },
           { s with tasks := replaceFirstBy (fun x => x.id == tid)
                               { t with
                                 status := TaskStatus.completed,
                                 result := some result,
                                 files_modified := files,
                                 updated_at := now } s.tasks })) := by
  constructor
  · unfold complete_task
    cases hf : s.tasks.find? (fun x => x.id == tid) with
    | none => simp
    | some t =>
      by_cases hcb : t.claimed_by = some B
      · simp [hcb]
      · simp [hcb]
  · intro t hf hcb
    unfold complete_task
    rw [hf]
    simp [hcb]

/-- Witness for C3: in `claimedTaskState` (task `t1` claimed by
`claude`), completion by `gemini` is rejected and completion by `claude`
succeeds with the stated field updates. -/
theorem complete_task_ownership_witness :
    ((complete_task claimedTaskState "t1" AgentRole.gemini "done" [] 4).1
      = none)
    ∧ complete_task claimedTaskState "t1" AgentRole.claude "done" ["f"] 4 =
        (some { claimedTask with
                status := TaskStatus.completed, result := some "done",
                files_modified := ["f"], updated_at := 4 },
         { claimedTaskState with
           tasks := replaceFirstBy (fun x => x.id == "t1")
                      { claimedTask with
                        status := TaskStatus.completed,
                        result := some "done",
                        files_modified := ["f"],
                        updated_at := 4 } claimedTaskState.tasks }) := by
  constructor
  · apply (complete_task_ownership claimedTaskState "t1" AgentRole.gemini
      "done" [] 4).1.mpr
    rintro ⟨t, hft, hcb⟩
    have hconcrete : claimedTaskState.tasks.find? (fun x => x.id == "t1")
        = some claimedTask := by decide
    rw [hconcrete] at hft
    injection hft with h
    subst h
    exact absurd hcb (by decide)
  · exact (complete_task_ownership claimedTaskState "t1" AgentRole.claude
      "done" ["f"] 4).2 claimedTask (by decide) (by decide)

/-- C1 (counterexample): the claim says a dependency id that resolves to
no task is treated as unmet and blocks the claim.  In `danglingDepState`
the task `t1` has the single dependency id "missing" which resolves to
no task, yet `claim_task` succeeds: the guard
`if dep_task and dep_task.status != COMPLETED` is skipped when
`dep_task` is `None`. -/
theorem claim_task_dangling_dep_counterexample :
    "missing" ∈ danglingDepTask.dependencies
    ∧ get_task danglingDepState "missing" = none
    ∧ ((claim_task danglingDepState "t1" AgentRole.claude 5).1).isSome
        = true := by
  decide

/-- C1 (amended): for a task whose claim guard passes, `claim_task`
succeeds exactly when every dependency id that resolves to a task
resolves to one with status `completed`; a dependency id that resolves
to no task is ignored (treated as met), and a resolving, non-completed
dependency blocks the claim. -/
theorem claim_task_dependency_gating (s : ConversationState) (tid : String)
    (agent : AgentRole) (now : Nat) (t : Task)
    (hfind : s.tasks.find? (fun x => x.id == tid) = some t)
    (hown : claimedByOther t agent = false) :
    (((claim_task s tid agent now).1).isSome = true) ↔
      ∀ dep ∈ t.dependencies, ∀ dt, get_task s dep = some dt →
        dt.status = TaskStatus.completed := by
  unfold claim_task
  rw [hfind]
  rw [show ((match some t with
    | none => ((none : Option Task), s)
    | some task =>
      if claimedByOther task agent = true then (none, s)
      else if (task.dependencies.any fun dep_id => dependencyBlocked s dep_id)
          = true then (none, s)
      else
        let task' := { task with
                       claimed_by := some agent,
                       status := TaskStatus.in_progress, updated_at := now }
        (some task',
         { s with tasks := replaceFirstBy (fun x => x.id == tid) task' s.tasks }))
    : Option Task × ConversationState) =
    (if claimedByOther t agent = true then (none, s)
     else if (t.dependencies.any fun dep_id => dependencyBlocked s dep_id)
         = true then (none, s)
     else
       let task' := { t with
                      claimed_by := some agent,
                      status := TaskStatus.in_progress, updated_at := now }
       (some task',
        { s with tasks := replaceFirstBy (fun x => x.id == tid) task' s.tasks }))
    from rfl]
  rw [if_neg (by simp [hown])]
  cases hd : t.dependencies.any (fun dep_id => dependencyBlocked s dep_id) with
  | true =>
    rw [if_pos rfl]
    simp only [Option.isSome_none, Bool.false_eq_true, false_iff]
    intro hall
    obtain ⟨dep, hmem, hblk⟩ := List.any_eq_true.mp hd
    unfold dependencyBlocked at hblk
    cases hgt : get_task s dep with
    | none => rw [hgt] at hblk; simp at hblk
    | some dt =>
      rw [hgt] at hblk
      have hne : dt.status ≠ TaskStatus.completed := by
        simpa [bne] using hblk
      exact hne (hall dep hmem dt hgt)
  | false =>
    rw [if_neg (by simp)]
    simp only [Option.isSome_some, true_iff]
    intro dep hmem dt hgt
    have hfalse : dependencyBlocked s dep = false := by
      have := List.any_eq_false.mp hd
      have h' := this dep hmem
      cases hx : dependencyBlocked s dep
      · rfl
      · exact absurd hx h'
    exact (dependencyBlocked_eq_false_iff s dep).mp hfalse dt hgt

/-- Witness for C1: the gating equivalence instantiated at
`danglingDepState`, whose only task is unclaimed and has the single
unresolvable dependency "missing"; both hypotheses hold by computation
and the right side holds vacuously, so the claim succeeds. -/
theorem claim_task_dependency_gating_witness :
    (((claim_task danglingDepState "t1" AgentRole.claude 5).1).isSome
      = true) ↔
      ∀ dep ∈ danglingDepTask.dependencies,
        ∀ dt, get_task danglingDepState dep = some dt →
          dt.status = TaskStatus.completed :=
  claim_task_dependency_gating danglingDepState "t1" AgentRole.claude 5
    danglingDepTask (by decide) (by decide)

/-- C4 (counterexample): the claim says a verdict, once set, is never
overwritten and a second submit is rejected.  In `verdictSetState` the
review `r1` already has verdict "APPROVED", yet a second
`submit_review` by its `to_agent` `codex` succeeds and overwrites the
verdict with "REJECTED": the code checks only `review.to_agent == agent`
and never that the verdict is unset. -/
theorem submit_review_overwrite_counterexample :
    decidedReview.verdict = some "APPROVED"
    ∧ ((submit_review verdictSetState "r1" AgentRole.codex "REJECTED" "no"
        "m9" 3).1).map ReviewRequest.verdict = some (some "REJECTED") := by
  decide

/-- C4 (amended): `submit_review` succeeds exactly when some review with
the given id has the calling agent as its designated `to_agent` —
regardless of whether a verdict is already set (a repeat submission by
`to_agent` overwrites the verdict).  Any other agent, including the
requester, is rejected, and a successful submission stores the given
verdict and feedback on a review addressed to the caller. -/
theorem submit_review_gating (s : ConversationState) (rid : String)
    (agent : AgentRole) (verdict feedback msg_id : String) (now : Nat) :
    (((submit_review s rid agent verdict feedback msg_id now).1).isSome
        = true ↔
      ∃ r ∈ s.reviews, r.id = rid ∧ r.to_agent = agent)
    ∧ (∀ r', (submit_review s rid agent verdict feedback msg_id now).1
          = some r' →
        r'.to_agent = agent ∧ r'.verdict = some verdict
          ∧ r'.feedback = some feedback) := by
  constructor
  · unfold submit_review
    cases hf : s.reviews.find? (fun r => r.id == rid && r.to_agent == agent) with
    | none =>
      simp only [Option.isSome_none, Bool.false_eq_true, false_iff]
      intro ⟨r, hmem, hid, hto⟩
      have := List.find?_eq_none.mp hf r hmem
      simp [hid, hto] at this
    | some r =>
      simp only [Option.isSome_some, true_iff]
      have hmem := List.mem_of_find?_eq_some hf
      have hpred := List.find?_some hf
      simp only [Bool.and_eq_true, beq_iff_eq] at hpred
      exact ⟨r, hmem, hpred.1, hpred.2⟩
  · intro r' hr'
    unfold submit_review at hr'
    cases hf : s.reviews.find? (fun r => r.id == rid && r.to_agent == agent) with
    | none => rw [hf] at hr'; simp at hr'
    | some r =>
      rw [hf] at hr'
      simp only [Option.some.injEq] at hr'
      have hpred := List.find?_some hf
      simp only [Bool.and_eq_true, beq_iff_eq] at hpred
      subst hr'
      exact ⟨hpred.2, rfl, rfl⟩

/-- Witness for C4: in `pendingReviewState` the review `r1` is addressed
to `codex`; a submission by `codex` succeeds and stores the verdict, and
the equivalence also rejects the requester `copilot` (no review with id
`r1` is addressed to `copilot`). -/
theorem submit_review_gating_witness :
    (((submit_review pendingReviewState "r1" AgentRole.codex "APPROVED"
        "ok" "m5" 7).1).isSome = true)
    ∧ (∀ r', (submit_review pendingReviewState "r1" AgentRole.codex
          "APPROVED" "ok" "m5" 7).1 = some r' →
        r'.to_agent = AgentRole.codex ∧ r'.verdict = some "APPROVED"
          ∧ r'.feedback = some "ok")
    ∧ ¬ (((submit_review pendingReviewState "r1" AgentRole.copilot
        "APPROVED" "ok" "m5" 7).1).isSome = true) := by
  refine ⟨?_, ?_, ?_⟩
  · exact (submit_review_gating pendingReviewState "r1" AgentRole.codex
      "APPROVED" "ok" "m5" 7).1.mpr
      ⟨sampleReview, by decide, by decide, by decide⟩
  · exact (submit_review_gating pendingReviewState "r1" AgentRole.codex
      "APPROVED" "ok" "m5" 7).2
  · intro hcontra
    obtain ⟨r, hmem, hid, hto⟩ := (submit_review_gating pendingReviewState
      "r1" AgentRole.copilot "APPROVED" "ok" "m5" 7).1.mp hcontra
    have : r = sampleReview := by
      have hmem' : r ∈ [sampleReview] := hmem
      simpa using hmem'
    subst this
    exact absurd hto (by decide)

/-- C6: with exactly one vote under the given topic, `cast_vote` is
rejected iff the choice is not among that vote's options (and always
rejected when no vote with the topic exists); a valid choice sets the
agent's entry in the vote map, overwriting any earlier cast by the same
agent, so repeated valid casts leave exactly one entry for that agent. -/
theorem cast_vote_validity (s : ConversationState) (topic : String)
    (agent : AgentRole) (choice : String) :
    (s.active_votes.find? (fun w => w.topic == topic) = none →
      cast_vote s topic agent choice = (none, s))
    ∧ (∀ v, s.active_votes.countP (fun w => w.topic == topic) = 1 →
        s.active_votes.find? (fun w => w.topic == topic) = some v →
        ((((cast_vote s topic agent choice).1).isSome = true) ↔
          choice ∈ v.options)
        ∧ (choice ∈ v.options →
            (cast_vote s topic agent choice).1 =
              some { v with votes := dictSet v.votes agent.value choice })
        ∧ (v.votes.countP (fun p => p.1 == agent.value) ≤ 1 →
            List.lookup agent.value (dictSet v.votes agent.value choice)
              = some choice
            ∧ (dictSet v.votes agent.value choice).countP
                (fun p => p.1 == agent.value) = 1)) := by
  constructor
  · intro hnone
    have h0 : s.active_votes.countP (fun w => w.topic == topic) = 0 :=
      List.countP_eq_zero.mpr (List.find?_eq_none.mp hnone)
    have hcomb := find?_and_none_of_countP_zero
      (q := fun w => w.options.contains choice) h0
    unfold cast_vote
    rw [hcomb]
  · intro v hcount hfind
    have hsplit := find?_and_of_unique
      (q := fun w => w.options.contains choice) hcount hfind
    by_cases hc : choice ∈ v.options
    · have hcont : v.options.contains choice = true := by simp [hc]
      rw [if_pos hcont] at hsplit
      unfold cast_vote
      rw [hsplit]
      refine ⟨by simp [hc], fun _ => rfl, fun h =>
        ⟨dictSet_lookup v.votes agent.value choice,
         dictSet_countP v.votes agent.value choice h⟩⟩
    · have hcont : v.options.contains choice = false := by
        cases hx : v.options.contains choice
        · rfl
        · exact absurd (by simpa using hx) hc
      rw [if_neg (by simp [hc])] at hsplit
      unfold cast_vote
      rw [hsplit]
      refine ⟨by simp [hc], fun h => absurd h hc, fun h =>
        ⟨dictSet_lookup v.votes agent.value choice,
         dictSet_countP v.votes agent.value choice h⟩⟩

/-- Witness for C6 at `singleVoteState` (one vote on "lang" with options
"go"/"rust", empty vote map): `gemini` casting "go" succeeds and records
exactly one entry, while `codex` casting "python" is rejected. -/
theorem cast_vote_validity_witness :
    (cast_vote singleVoteState "lang" AgentRole.gemini "go").1 =
      some { langVote with votes := [("gemini", "go")] }
    ∧ ((cast_vote singleVoteState "lang" AgentRole.codex "python").1).isSome
        = false := by
  constructor
  · have h := ((cast_vote_validity singleVoteState "lang" AgentRole.gemini
      "go").2 langVote (by decide) (by decide)).2.1 (by decide)
    rw [h]
    decide
  · have h := ((cast_vote_validity singleVoteState "lang" AgentRole.codex
      "python").2 langVote (by decide) (by decide)).1
    cases hx : ((cast_vote singleVoteState "lang" AgentRole.codex
        "python").1).isSome
    · rfl
    · exact absurd (h.mp hx) (by decide)

/-- C7 (counterexample): the claim says every cast lands in, and is
validated against, the first-created vote with the topic.  In
`dupTopicState` the first "lang" vote has options ["a"] only, yet
casting "b" succeeds and lands in the second duplicate (options ["b"]):
the loop skips a topic match whose option list lacks the choice. -/
theorem cast_vote_duplicate_topic_counterexample :
    dupTopicState.active_votes.find? (fun w => w.topic == "lang")
      = some voteA
    ∧ "b" ∉ voteA.options
    ∧ (cast_vote dupTopicState "lang" AgentRole.claude "b").1 =
        some { voteB with votes := [("claude", "b")] } := by
  decide

/-- C7 (amended): `cast_vote` acts on the first vote whose topic matches
AND whose option list contains the choice; in particular, when the
choice is among the first topic-occurrence's options the cast lands in
that first occurrence, but otherwise a later duplicate can receive it —
the call succeeds iff any vote with the topic lists the choice. -/
theorem cast_vote_first_match (s : ConversationState) (topic : String)
    (agent : AgentRole) (choice : String) :
    (∀ v, s.active_votes.find? (fun w => w.topic == topic) = some v →
      choice ∈ v.options →
      (cast_vote s topic agent choice).1 =
        some { v with votes := dictSet v.votes agent.value choice })
    ∧ (((cast_vote s topic agent choice).1).isSome = true ↔
        ∃ w ∈ s.active_votes, w.topic = topic ∧ choice ∈ w.options) := by
  constructor
  · intro v hfind hc
    have hcont : v.options.contains choice = true := by simp [hc]
    have hcomb := find?_and_of_find?
      (q := fun w => w.options.contains choice) hfind hcont
    unfold cast_vote
    rw [hcomb]
  · unfold cast_vote
    cases hf : s.active_votes.find?
        (fun w => w.topic == topic && w.options.contains choice) with
    | none =>
      simp only [Option.isSome_none, Bool.false_eq_true, false_iff]
      intro ⟨w, hmem, ht, hcw⟩
      have := List.find?_eq_none.mp hf w hmem
      simp [ht, hcw] at this
    | some w =>
      simp only [Option.isSome_some, true_iff]
      have hmem := List.mem_of_find?_eq_some hf
      have hpred := List.find?_some hf
      simp only [Bool.and_eq_true, beq_iff_eq] at hpred
      exact ⟨w, hmem, hpred.1, by simpa using hpred.2⟩

/-- Witness for C7: in `dupTopicState` a cast of "a" lands in the first
"lang" vote `voteA`, and a cast of "b" still succeeds (landing in the
later duplicate). -/
theorem cast_vote_first_match_witness :
    (cast_vote dupTopicState "lang" AgentRole.claude "a").1 =
      some { voteA with votes := [("claude", "a")] }
    ∧ ((cast_vote dupTopicState "lang" AgentRole.claude "b").1).isSome
        = true := by
  constructor
  · have h := (cast_vote_first_match dupTopicState "lang" AgentRole.claude
      "a").1 voteA (by decide) (by decide)
    rw [h]
    decide
  · exact (cast_vote_first_match dupTopicState "lang" AgentRole.claude
      "b").2.mpr ⟨voteB, by decide, by decide, by decide⟩

/-- C8 (counterexample): the claim says a re-claim by the same agent is
a no-op on every field.  Re-claiming `t1` (already claimed by `claude`,
`updated_at = 0`) at time 5 succeeds but rewrites `updated_at` to 5, so
the state changes. -/
theorem claim_task_reclaim_counterexample :
    ((claim_task claimedTaskState "t1" AgentRole.claude 5).1).isSome = true
    ∧ (claim_task claimedTaskState "t1" AgentRole.claude 5).2
        ≠ claimedTaskState
    ∧ (claim_task claimedTaskState "t1" AgentRole.claude 5).1 =
        some { claimedTask with updated_at := 5 } := by
  decide

/-- C8 (amended): a re-claim by the claiming agent (with dependencies
satisfied) succeeds and changes nothing except that `status` is set to
`in_progress` and `updated_at` to the time of the call; it is a full
no-op exactly in the degenerate case where the status was already
`in_progress` and the call's time equals the stored `updated_at`. -/
theorem claim_task_reclaim (s : ConversationState) (tid : String)
    (A : AgentRole) (now : Nat) (t : Task)
    (hfind : s.tasks.find? (fun x => x.id == tid) = some t)
    (hmine : t.claimed_by = some A)
    (hdeps : t.dependencies.any (fun d => dependencyBlocked s d) = false) :
    claim_task s tid A now =
      (some { t with status := TaskStatus.in_progress, updated_at := now },
       { s with tasks := replaceFirstBy (fun x => x.id == tid)
                           { t with
                             status := TaskStatus.in_progress,
                             updated_at := now } s.tasks })
    ∧ (t.status = TaskStatus.in_progress → t.updated_at = now →
        claim_task s tid A now = (some t, s)) := by
  have hown : claimedByOther t A = false := by
    unfold claimedByOther
    rw [hmine]
    simp
  have heq : ({ t with
                claimed_by := some A, status := TaskStatus.in_progress,
                updated_at := now } : Task)
      = { t with status := TaskStatus.in_progress, updated_at := now } := by
    cases t
    simp_all
  have hmain := claim_task_succeeds_eq s tid A now t hfind hown hdeps
  rw [heq] at hmain
  refine ⟨hmain, ?_⟩
  intro hst hup
  have heta : ({ t with
                 status := TaskStatus.in_progress,
                 updated_at := now } : Task) = t := by
    cases t
    simp_all
  rw [heta] at hmain
  rw [hmain, replaceFirstBy_self hfind]

/-- Witness for C8: re-claiming `t1` in `claimedTaskState` at the very
time stored in `updated_at` hits the degenerate full no-op case. -/
theorem claim_task_reclaim_witness :
    claim_task claimedTaskState "t1" AgentRole.claude 0 =
      (some claimedTask, claimedTaskState) :=
  (claim_task_reclaim claimedTaskState "t1" AgentRole.claude 0 claimedTask
    (by decide) (by decide) (by decide)).2 (by decide) (by decide)

/-- C2 (counterexample): the claim says that once `claim(T, A)` has
succeeded, a subsequent `claim(T, A)` by the same agent succeeds.  The
completed task `t2` lists its own id as a dependency: `claude`'s first
claim succeeds (the dependency resolves to the completed task itself),
but the very next re-claim by `claude` is rejected, because the first
claim reset the status to `in_progress`, un-completing the
self-dependency. -/
theorem claim_task_exclusivity_counterexample :
    ((claim_task selfDepState "t2" AgentRole.claude 1).1).isSome = true
    ∧ (claim_task (claim_task selfDepState "t2" AgentRole.claude 1).2 "t2"
        AgentRole.claude 2).1 = none := by
  decide

/-- C2 (amended): once `claim(T, A)` succeeds, any claim of T by an
agent B ≠ A on the resulting state is rejected and leaves the state
unchanged (and `claimed_by` stays A, which no operation short of a
session reset clears), while a re-claim by A itself succeeds provided
T's dependency list does not contain T's own id (its other dependencies
are untouched by the claim). -/
theorem claim_task_exclusivity (s : ConversationState) (tid : String)
    (A : AgentRole) (now : Nat) (t : Task)
    (hfind : s.tasks.find? (fun x => x.id == tid) = some t)
    (hsucc : ((claim_task s tid A now).1).isSome = true) :
    (∀ B, B ≠ A → ∀ now2,
      claim_task (claim_task s tid A now).2 tid B now2 =
        (none, (claim_task s tid A now).2))
    ∧ (tid ∉ t.dependencies → ∀ now2,
        ((claim_task (claim_task s tid A now).2 tid A now2).1).isSome
          = true) := by
  obtain ⟨t0, hf0, hown, hdeps⟩ := claim_task_success_inv s tid A now hsucc
  have ht0 : t = t0 := by
    rw [hfind] at hf0
    injection hf0
  subst ht0
  have htid : t.id = tid := by
    have h := List.find?_some hfind
    simpa using h
  have hmain := claim_task_succeeds_eq s tid A now t hfind hown hdeps
  set t1 : Task := { t with
                     claimed_by := some A,
                     status := TaskStatus.in_progress,
                     updated_at := now } with ht1
  set s2 : ConversationState :=
    { s with tasks := replaceFirstBy (fun x => x.id == tid) t1 s.tasks }
    with hs2
  rw [hmain]
  dsimp only
  have hfind2 : s2.tasks.find? (fun x => x.id == tid) = some t1 := by
    rw [hs2]
    exact find?_replaceFirstBy_self hfind (by simp [ht1, htid])
  constructor
  · intro B hB now2
    have hother : claimedByOther t1 B = true := by
      rw [ht1]
      unfold claimedByOther
      dsimp only
      rw [bne_iff_ne]
      exact Ne.symm hB
    unfold claim_task
    rw [hfind2]
    simp [hother]
  · intro hnotdep now2
    have hown2 : claimedByOther t1 A = false := by
      rw [ht1]
      unfold claimedByOther
      dsimp only
      simp
    have hdepsX : t1.dependencies = t.dependencies := by rw [ht1]
    have hsame : ∀ dep ∈ t.dependencies,
        dependencyBlocked s2 dep = dependencyBlocked s dep := by
      intro dep hdep
      have hne : dep ≠ tid := fun hh => hnotdep (hh ▸ hdep)
      unfold dependencyBlocked get_task
      rw [hs2]
      dsimp only
      rw [find?_replaceFirstBy_other]
      · intro a _ hpa
        rw [beq_iff_eq] at hpa
        rw [beq_eq_false_iff_ne, hpa]
        exact Ne.symm hne
      · rw [beq_eq_false_iff_ne, ht1]
        show t.id ≠ dep
        rw [htid]
        exact Ne.symm hne
    have hdeps2 : t1.dependencies.any (fun d => dependencyBlocked s2 d)
        = false := by
      rw [hdepsX, List.any_eq_false]
      intro dep hdep
      rw [hsame dep hdep]
      exact List.any_eq_false.mp hdeps dep hdep
    unfold claim_task
    rw [hfind2]
    simp [hown2, hdeps2]

/-- Witness for C2: after `claude` claims the plain task `t1`, a claim
by `gemini` is rejected without changing the state, and `claude`'s own
re-claim succeeds. -/
theorem claim_task_exclusivity_witness :
    claim_task (claim_task plainTaskState "t1" AgentRole.claude 1).2 "t1"
        AgentRole.gemini 2 =
      (none, (claim_task plainTaskState "t1" AgentRole.claude 1).2)
    ∧ ((claim_task (claim_task plainTaskState "t1" AgentRole.claude 1).2
        "t1" AgentRole.claude 3).1).isSome = true := by
  have h := claim_task_exclusivity plainTaskState "t1" AgentRole.claude 1
    sampleTask (by decide) (by decide)
  exact ⟨h.1 AgentRole.gemini (by decide) 2, h.2 (by decide) 3⟩

end Orchestra
